import Mathlib

/-!
Shallow embedding of the portfolio-api repository (TypeScript/Express) and
proofs about its cache service, webhook handling, project classification,
profile mapping, commit-streak metrics, and controller behaviour.

Conventions used throughout:
* Machine integers are `Nat`/`Int`; millisecond timestamps are `Int`.
* A fallible external call is modelled by an explicit `fail : Bool` flag
  (the underlying client either throws or succeeds) or by `Except Unit`.
* JavaScript truthiness on strings (`'' is falsy`) is modelled explicitly
  where the source relies on it.
* Redis state is an association list of entries; an entry with `ttl = none`
  has no expiry and persists indefinitely.
-/

/-- JS `String.prototype.includes(sub)`: substring containment. -/
def strIncludes (s sub : String) : Bool :=
  (List.range (s.toList.length + 1)).any (fun i => sub.toList.isPrefixOf (s.toList.drop i))

/-- One Redis key with its stored string value and optional expiry
    (seconds); `ttl = none` means the key never expires. -/
structure RedisEntry where
  key : String
  value : String
  ttl : Option Nat
  deriving DecidableEq, Repr

/-- Look a key up in the Redis state (association-list model). -/
def redisLookup (st : List RedisEntry) (k : String) : Option RedisEntry :=
  st.find? (fun e => e.key == k)

/-- Redis `SETEX key ttl value`: store the value under the key with a
    finite expiry of `ttl` seconds, replacing any previous entry. -/
def redisSetEx (st : List RedisEntry) (k : String) (ttl : Nat) (v : String) : List RedisEntry :=
  ⟨k, v, some ttl⟩ :: st.filter (fun e => e.key != k)

/-- Redis `INCRBY key amount`: add to the integer stored at the key.
    An existing key keeps its expiry; a missing key is created holding
    `amount` with NO expiry (`ttl = none`), exactly as Redis does. -/
def redisIncrBy (st : List RedisEntry) (k : String) (amount : Int) : List RedisEntry × Int :=
  match redisLookup st k with
  | some e =>
      let n := (e.value.toInt?.getD 0) + amount
      (⟨k, toString n, e.ttl⟩ :: st.filter (fun x => x.key != k), n)
  | none => (⟨k, toString amount, none⟩ :: st, amount)

/-- Redis glob-style pattern match (`*` and `?`), used by `KEYS`. -/
def globMatch : List Char → List Char → Bool
  | [], [] => true
  | [], _ :: _ => false
  | p :: ps, [] => if p = '*' then globMatch ps [] else false
  | p :: ps, c :: cs =>
    if p = '*' then globMatch ps (c :: cs) || globMatch (p :: ps) cs
    else if p = '?' then globMatch ps cs
    else if p = c then globMatch ps cs else false
termination_by ps cs => (cs.length, ps.length)

/-- `CacheService.get` (src/service/cache.service.ts): returns the parsed
    cached value when the client returns truthy data, `null` on a miss, and
    `null` when the client throws (the catch branch logs and returns null).
    Values are modelled by their JSON strings; `JSON.parse` round-trips. -/
def CacheService.get (st : List RedisEntry) (k : String) (fail : Bool) : Option String :=
  if fail then none
  else match redisLookup st k with
    | some e => if e.value = "" then none else some e.value
    | none => none

/-- `CacheService.set`: `setEx(key, ttl, JSON.stringify(value))`; returns
    `true` on success and `false` (state unchanged) when the client throws.
    The source defaults `ttl` to 3600; see `CacheService.setDefault`. -/
def CacheService.set (st : List RedisEntry) (k v : String) (ttl : Nat) (fail : Bool) :
    Bool × List RedisEntry :=
  if fail then (false, st) else (true, redisSetEx st k ttl v)

/-- `CacheService.set` with the source's default TTL argument (3600 s). -/
def CacheService.setDefault (st : List RedisEntry) (k v : String) (fail : Bool) :
    Bool × List RedisEntry :=
  CacheService.set st k v 3600 fail

/-- `CacheService.del`: deletes the key; `false` (state unchanged) when the
    client throws. -/
def CacheService.del (st : List RedisEntry) (k : String) (fail : Bool) :
    Bool × List RedisEntry :=
  if fail then (false, st) else (true, st.filter (fun e => e.key != k))

/-- `CacheService.exists`: `true` iff the client reports the key present
    (`exists === 1`); `false` when the client throws. -/
def CacheService.existsKey (st : List RedisEntry) (k : String) (fail : Bool) : Bool :=
  if fail then false else (redisLookup st k).isSome

/-- `CacheService.keys(pattern)`: the keys matching the glob pattern;
    `[]` when the client throws. -/
def CacheService.keys (st : List RedisEntry) (pat : String) (fail : Bool) : List String :=
  if fail then []
  else (st.map RedisEntry.key).filter (fun k => globMatch pat.toList k.toList)

/-- `CacheService.flushAll`: empties the store; `false` (state unchanged)
    when the client throws. -/
def CacheService.flushAll (st : List RedisEntry) (fail : Bool) : Bool × List RedisEntry :=
  if fail then (false, st) else (true, [])

/-- `CacheService.increment`: `incrBy(key, amount)`; returns the new value,
    or `0` (state unchanged) when the client throws. The source defaults
    `amount` to 1; see `CacheService.incrementDefault`. -/
def CacheService.increment (st : List RedisEntry) (k : String) (amount : Int) (fail : Bool) :
    Int × List RedisEntry :=
  if fail then (0, st)
  else
    let r := redisIncrBy st k amount
    (r.2, r.1)

/-- `CacheService.increment` with the source's default amount (1). -/
def CacheService.incrementDefault (st : List RedisEntry) (k : String) (fail : Bool) :
    Int × List RedisEntry :=
  CacheService.increment st k 1 fail

/-- `verifyWebhookSignature(payload, signature)`
    (src/helpers/webhookSecurity.ts). The HMAC-SHA256 hex digest primitive
    (Node `crypto.createHmac('sha256', secret).update(payload).digest('hex')`)
    is an external library call and is passed in as `hmacHex`; the payload
    is the raw byte list. `secret` is the `GITHUB_WEBHOOK_SECRET` env var
    (`none` = unset). The source first rejects on JS-falsy secret,
    signature, or payload (`none`, and `""` for the strings; a `Buffer` is
    always truthy when present), then compares the received signature with
    `sha256=<digest>` by a length guard plus `crypto.timingSafeEqual`,
    which on equal-length UTF-8 buffers is exactly string equality. -/
def verifyWebhookSignature (hmacHex : String → List Nat → String)
    (secret : Option String) (payload : Option (List Nat)) (signature : Option String) : Bool :=
  match secret, payload, signature with
  | some s, some p, some g =>
    if s = "" ∨ g = "" then false
    else
      let expected := "sha256=" ++ hmacHex s p
      if g.length ≠ expected.length then false
      else g = expected
  | _, _, _ => false

/-- `processWebhookEvent(eventType, payload)`
    (src/helpers/webhookHandler.ts): dispatches on the event type and
    deletes the corresponding cache keys; unhandled event types only log.
    Modelled by the list of keys passed to `cacheService.del`, in order. -/
def processWebhookEvent (eventType : String) : List String :=
  if eventType = "push" then
    ["github:repositories", "github:overview", "github:stats", "github:activities"]
  else if eventType = "create" then ["github:repositories", "github:stats"]
  else if eventType = "delete" then ["github:repositories", "github:stats"]
  else if eventType = "watch" then ["github:stats"]
  else if eventType = "fork" then ["github:stats"]
  else if eventType = "issues" then ["github:activities"]
  else if eventType = "pull_request" then ["github:activities"]
  else []

/-- Observable outcome of one `handleGithubWebhook` request: the HTTP
    status sent, the cache keys deleted, and whether `processWebhookEvent`
    was invoked. -/
structure WebhookOutcome where
  status : Nat
  deleted : List String
  processedEvent : Bool
  deriving DecidableEq, Repr

/-- `handleGithubWebhook` (src/controller/github.ts, lines 612-670).
    `signature` is `req.headers['x-hub-signature-256'] || ''`; the payload
    buffer is always truthy, so the 400 guard only fires on an empty
    signature. A request that fails `verifyWebhookSignature` gets 401 and
    no cache key is touched; only a verified request reaches
    `processWebhookEvent` and the 200 response. -/
def handleGithubWebhook (hmacHex : String → List Nat → String)
    (secret : Option String) (signature : String) (payload : List Nat)
    (eventType : String) : WebhookOutcome :=
  if signature = "" then ⟨400, [], false⟩
  else if verifyWebhookSignature hmacHex secret (some payload) (some signature) then
    ⟨200, processWebhookEvent eventType, true⟩
  else ⟨401, [], false⟩

/-- The response an endpoint handler sends: a success payload with its
    `cached` flag, or the error response built in the catch branch. -/
inductive SentResponse (α : Type) where
  | success (data : α) (cached : Bool)
  | failure
  deriving DecidableEq, Repr

/-- Observable trace of one controller request: GitHub service calls made
    (in order), cache writes performed as (key, ttl) pairs, and the HTTP
    response sent (`none` when the handler never sends one). -/
structure HandlerTrace (α : Type) where
  githubCalls : List String
  cacheWrites : List (String × Nat)
  response : Option (SentResponse α)
  deriving DecidableEq, Repr

/-- `githubController.getProfile` (src/controller/github.ts, lines 29-90).
    `cacheVal` is what `cacheService.get 'github:profile'` returns (the
    cache never throws); `fetchResult` is the outcome of
    `githubService.fetchProfile()`. On a hit the cached value is sent with
    `cached = true` and no GitHub call is made; on a miss the handler
    fetches, caches for 3600 s, reads the rate limit and sends fresh data;
    if the fetch throws, the catch branch sends an error response. -/
def getProfileHandler {α : Type} (cacheVal : Option α) (fetchResult : Except Unit α) :
    HandlerTrace α :=
  match cacheVal with
  | some p => ⟨[], [], some (.success p true)⟩
  | none =>
    match fetchResult with
    | .ok v =>
        ⟨["fetchProfile", "getRateLimit"], [("github:profile", 3600)], some (.success v false)⟩
    | .error _ => ⟨["fetchProfile"], [], some .failure⟩

/-- `getStats` (src/controller/github.ts, lines 337-375). The handler reads
    the cache, then ALWAYS calls `githubService.fetchRepositories()` before
    looking at the cached value; only on a miss does it compute stats from
    the fetched repositories, cache them for 3600 s and read the rate
    limit. Its catch branch only logs: no response is sent on failure. -/
def getStatsHandler {ρ σ : Type} (cacheVal : Option σ) (reposResult : Except Unit ρ)
    (calculateStats : ρ → σ) : HandlerTrace σ :=
  match reposResult with
  | .error _ => ⟨["fetchRepositories"], [], none⟩
  | .ok repos =>
    match cacheVal with
    | some s => ⟨["fetchRepositories"], [], some (.success s true)⟩
    | none =>
        ⟨["fetchRepositories", "getRateLimit"], [("github:stats", 3600)],
          some (.success (calculateStats repos) false)⟩

/-- `getEvents` (src/controller/github.ts, lines 529-573). Cache-aside like
    `getProfile` (but without a rate-limit read); its catch branch only
    logs, so no response is sent when `fetchEvents` throws. -/
def getEventsHandler {α : Type} (cacheVal : Option α) (fetchResult : Except Unit α) :
    HandlerTrace α :=
  match cacheVal with
  | some ev => ⟨[], [], some (.success ev true)⟩
  | none =>
    match fetchResult with
    | .ok v => ⟨["fetchEvents"], [("github:events", 3600)], some (.success v false)⟩
    | .error _ => ⟨["fetchEvents"], [], none⟩

/-- The repository DTO (types/github.types.ts) restricted to the fields the
    project service reads. `pushed_at` is the parsed push timestamp in
    epoch milliseconds (`none` when GitHub sends null); `topics` is `none`
    when the field is absent; `is_private` mirrors GitHub's `private`. -/
structure GitHubRepository where
  id : Int
  name : String
  description : Option String
  html_url : String
  language : Option String
  stargazers_count : Nat
  forks_count : Nat
  created_at : String
  updated_at : String
  pushed_at : Option Int
  topics : Option (List String)
  is_private : Bool
  deriving DecidableEq, Repr

/-- The `Project` DTO (types/project.types.ts) as built by
    `ProjectService.mapRepositoryToProject`. -/
structure Project where
  id : Int
  name : String
  description : Option String
  html_url : String
  language : Option String
  stargazers_count : Nat
  forks_count : Nat
  created_at : String
  updated_at : String
  pushed_at : Option Int
  topics : Option (List String)
  categories : List String
  status : String
  featured : Bool
  technologies : List String
  deriving DecidableEq, Repr

/-- The topic/language heuristics of
    `ProjectService.determineCategories` (src/service/project.service.ts,
    lines 64-140) BEFORE the final `'other'` fallback: category indicators
    collected from the topics in source order, then `'web-frontend'` from
    the primary language if not already present. -/
def rawCategories (repo : GitHubRepository) : List String :=
  let fromTopics :=
    match repo.topics with
    | some ts =>
      (if ts.any (fun t =>
          ["react", "vue", "angular", "frontend", "ui", "client"].contains t.toLower)
        then ["web-frontend"] else []) ++
      (if ts.any (fun t =>
          ["api", "backend", "server", "express", "node", "fastapi", "nestjs"].contains
            t.toLower)
        then ["backend"] else []) ++
      (if ts.any (fun t =>
          ["fullstack", "full-stack", "mern", "mean", "nextjs"].contains t.toLower)
        then ["fullstack"] else []) ++
      (if ts.any (fun t =>
          ["mobile", "ios", "android", "flutter", "react-native", "swift", "kotlin"].contains
            t.toLower)
        then ["mobile"] else []) ++
      (if ts.any (fun t =>
          ["desktop", "electron", "windows", "macos", "linux"].contains t.toLower)
        then ["desktop"] else [])
    | none => []
  fromTopics ++
    (match repo.language with
     | some l =>
       if ["TypeScript", "JavaScript", "CSS", "HTML"].contains l
           && !(fromTopics.contains "web-frontend")
         then ["web-frontend"] else []
     | none => [])

/-- `ProjectService.determineCategories`: the collected category list, or
    `['other']` when no heuristic matched. -/
def determineCategories (repo : GitHubRepository) : List String :=
  if (rawCategories repo).length > 0 then rawCategories repo else ["other"]

/-- `ProjectService.determineStatus` (lines 144-170). `now` is the current
    time in epoch ms; `daysSinceLastPush` uses `Math.floor`, i.e. `Int.fdiv`. -/
def determineStatus (now : Int) (repo : GitHubRepository) : String :=
  match repo.pushed_at with
  | none => "inactive"
  | some t =>
    let daysSinceLastPush := Int.fdiv (now - t) 86400000
    if daysSinceLastPush ≤ 7 then "active"
    else if daysSinceLastPush ≤ 30 then "in development"
    else if daysSinceLastPush ≤ 90 then "inactive"
    else if daysSinceLastPush ≤ 365 then "archived"
    else "completed"

/-- `ProjectService.determineFeatured` (lines 172-187): featured when at
    least one of the five JS-truthy criteria holds. -/
def determineFeatured (now : Int) (repo : GitHubRepository) : Bool :=
  let hasStars := decide (repo.stargazers_count > 0)
  let hasForks := decide (repo.forks_count > 0)
  let hasDescription :=
    match repo.description with
    | some d => decide (d.toList.length > 5)
    | none => false
  let hasTopics :=
    match repo.topics with
    | some ts => decide (ts.length > 0)
    | none => false
  let isRecent :=
    match repo.pushed_at with
    | some t => decide (t > now - 90 * 24 * 60 * 60 * 1000)
    | none => false
  let metCriteria :=
    ([hasStars, hasForks, hasDescription, hasTopics, isRecent].filter (fun b => b)).length
  decide (metCriteria ≥ 1)

/-- First-occurrence deduplication, as JS `Array.from(new Set(xs))`. -/
def dedupFirst : List String → List String
  | [] => []
  | x :: xs => x :: (dedupFirst xs).filter (fun y => y != x)

/-- `ProjectService.determineTechnologies` (lines 189-214): the primary
    language (when truthy) followed by the non-generic topics, deduplicated
    keeping first occurrences. -/
def determineTechnologies (repo : GitHubRepository) : List String :=
  let fromLanguage :=
    match repo.language with
    | some l => if l = "" then [] else [l]
    | none => []
  let fromTopics :=
    match repo.topics with
    | some ts =>
      ts.filter (fun t =>
        !(["web", "mobile", "desktop", "backend", "frontend", "fullstack"].contains
          t.toLower))
    | none => []
  dedupFirst (fromLanguage ++ fromTopics)

/-- `ProjectService.mapRepositoryToProject` (lines 43-62). -/
def mapRepositoryToProject (now : Int) (repo : GitHubRepository) : Project :=
  { id := repo.id
    name := repo.name
    description := repo.description
    html_url := repo.html_url
    language := repo.language
    stargazers_count := repo.stargazers_count
    forks_count := repo.forks_count
    created_at := repo.created_at
    updated_at := repo.updated_at
    pushed_at := repo.pushed_at
    topics := repo.topics
    categories := determineCategories repo
    status := determineStatus now repo
    featured := determineFeatured now repo
    technologies := determineTechnologies repo }

/-- `ProjectService.filterRepositories` (lines 34-41):
    `!repo.is_private && !repo.name.includes('fork')`. -/
def filterRepositories (repositories : List GitHubRepository) : List GitHubRepository :=
  repositories.filter (fun repo => !repo.is_private && !(strIncludes repo.name "fork"))

/-- `ProjectService.getAllProjects` (lines 11-32) applied to the list of
    repositories fetched from GitHub: filter, then map to `Project`. -/
def getAllProjects (now : Int) (repositories : List GitHubRepository) : List Project :=
  (filterRepositories repositories).map (mapRepositoryToProject now)

/-- The GitHub users API response (octokit `users.getByUsername().data`)
    restricted to the fields `fetchProfile` reads. Optional fields are
    `Option String`; GitHub sends `""` (not null) for an unset `blog`. -/
structure GitHubUserResponse where
  login : String
  name : Option String
  bio : Option String
  avatar_url : String
  location : Option String
  email : Option String
  company : Option String
  blog : Option String
  twitter_username : Option String
  public_gists : Nat
  public_repos : Nat
  followers : Nat
  following : Nat
  created_at : String
  updated_at : String
  deriving DecidableEq, Repr

/-- The `GitHubProfile` DTO built by `GitHubService.fetchProfile`. -/
structure GitHubProfile where
  login : String
  name : Option String
  bio : Option String
  avatar_url : String
  location : Option String
  email : Option String
  company : Option String
  blog : Option String
  twitter_username : Option String
  public_gists : Nat
  public_repos : Nat
  followers : Nat
  following : Nat
  created_at : String
  updated_at : String
  deriving DecidableEq, Repr

/-- JS `x || null` on an optional string: `null`, `undefined` and the
    falsy `""` all become `null`. -/
def jsOrNull (o : Option String) : Option String :=
  match o with
  | some s => if s = "" then none else some s
  | none => none

/-- `GitHubService.fetchProfile` (src/service/github.service.ts, lines
    22-68): the DTO built from a successful API response. `login`, `name`,
    `bio`, `avatar_url`, the counters and the dates are copied directly;
    `location`, `email`, `company`, `blog` and `twitter_username` go
    through `|| null`. -/
def fetchProfile (resp : GitHubUserResponse) : GitHubProfile :=
  { login := resp.login
    name := resp.name
    bio := resp.bio
    avatar_url := resp.avatar_url
    location := jsOrNull resp.location
    email := jsOrNull resp.email
    company := jsOrNull resp.company
    blog := jsOrNull resp.blog
    twitter_username := jsOrNull resp.twitter_username
    public_gists := resp.public_gists
    public_repos := resp.public_repos
    followers := resp.followers
    following := resp.following
    created_at := resp.created_at
    updated_at := resp.updated_at }

/-- A streak record `{ start, end, days }` from
    `MetricsService.calculateStreaks`. Commit days are modelled as integer
    day numbers (a calendar day is one unit, so the source's
    `(b - a) / 86400000 === 1` becomes `b - a = 1`); `stop` is the
    source's `end` field. -/
structure Streak where
  start : Int
  stop : Int
  days : Nat
  deriving DecidableEq, Repr

/-- Loop of `MetricsService.findConsecutiveDays` (metrics.service.ts,
    lines 730-769): walk the remaining dates carrying the current run
    (its first day, last day `prev`, and length `len`), emitting a streak
    record whenever a run of length > 1 ends. -/
def findConsecutiveGo (prev first : Int) (len : Nat) : List Int → List Streak
  | [] => if 1 < len then [⟨first, prev, len⟩] else []
  | d :: rest =>
    if d - prev = 1 then findConsecutiveGo d first (len + 1) rest
    else (if 1 < len then [⟨first, prev, len⟩] else []) ++ findConsecutiveGo d d 1 rest

/-- `MetricsService.findConsecutiveDays`: the runs of consecutive days of
    length > 1, in order; single-day runs are dropped. -/
def findConsecutiveDays : List Int → List Streak
  | [] => []
  | d :: rest => findConsecutiveGo d d 1 rest

/-- Loop of `MetricsService.getCurrentStreak` (lines 771-824) over the
    dates after the most recent one (the input list is sorted descending):
    extend the streak while each next-older day is exactly one day before,
    else break. Returns (days, start). -/
def currentStreakGo (prev : Int) (count : Nat) (start : Int) : List Int → Nat × Int
  | [] => (count, start)
  | d :: rest =>
    if prev - d = 1 then currentStreakGo d (count + 1) d rest
    else (count, start)

/-- `MetricsService.getCurrentStreak`: zero when the most recent commit is
    more than one day old, else the run counted backwards from it.
    `today` stands for `new Date()` normalised to midnight. -/
def getCurrentStreak (today : Int) (dates : List Int) : Streak :=
  match dates with
  | [] => ⟨today, today, 0⟩
  | d :: rest =>
    if today - d > 1 then ⟨today, today, 0⟩
    else
      let r := currentStreakGo d 1 d rest
      ⟨r.2, d, r.1⟩

/-- `MetricsService.calculateStreaks` (lines 697-729) on the sorted
    ascending list of distinct commit days: returns
    (currentStreak, longestStreak). With 0 or 1 commit days the loops are
    skipped; otherwise the longest streak is the JS `reduce` over
    `findConsecutiveDays` keeping the record with strictly more days, or a
    `days = 0` record when that list is empty. -/
def calculateStreaks (today : Int) (commitDays : List Int) : Streak × Streak :=
  match commitDays with
  | [] => (⟨today, today, 0⟩, ⟨today, today, 0⟩)
  | [d] => (⟨d, d, 1⟩, ⟨d, d, 1⟩)
  | _ :: _ :: _ =>
    let streaks := findConsecutiveDays commitDays
    let currentStreak := getCurrentStreak today commitDays.reverse
    let longestStreak :=
      match streaks with
      | [] => ⟨today, today, 0⟩
      | s :: rest => rest.foldl (fun longest streak =>
          if streak.days > longest.days then streak else longest) s
    (currentStreak, longestStreak)

/-- Specification-side grouping of a day list into maximal runs: the run
    lengths, where a run extends while the next day is exactly one later. -/
def runLengthsGo (prev : Int) (len : Nat) : List Int → List Nat
  | [] => [len]
  | d :: rest =>
    if d - prev = 1 then runLengthsGo d (len + 1) rest
    else len :: runLengthsGo d 1 rest

/-- The lengths of the maximal runs of consecutive calendar days of a
    (sorted, distinct) day list. -/
def runLengths : List Int → List Nat
  | [] => []
  | d :: rest => runLengthsGo d 1 rest

/-- The length of the longest run of consecutive calendar days in a
    (sorted, distinct) day list. -/
def maxRunLen (ds : List Int) : Nat :=
  (runLengths ds).foldl max 0

/-- Specification-side mapping for the optional profile fields: an absent
    or empty-string field becomes null, anything else is copied unchanged. -/
def specOptionalField (o : Option String) : Option String :=
  if o = some "" then none else o

/-- A concrete GitHub users API response whose `blog` is the empty string,
    which is what GitHub sends for a user with no blog set. -/
def sampleUserResponse : GitHubUserResponse :=
  { login := "demaestro"
    name := some "De Maestro"
    bio := none
    avatar_url := "https://avatars.example/u/1"
    location := some "Lagos"
    email := none
    company := none
    blog := some ""
    twitter_username := none
    public_gists := 1
    public_repos := 2
    followers := 3
    following := 4
    created_at := "2020-01-01T00:00:00Z"
    updated_at := "2024-01-01T00:00:00Z" }

/-- A concrete repository matching none of the category heuristics:
    no topics and no primary language. -/
def sampleBareRepo : GitHubRepository :=
  { id := 1
    name := "dotfiles"
    description := none
    html_url := "https://github.example/r/dotfiles"
    language := none
    stargazers_count := 0
    forks_count := 0
    created_at := "2020-01-01T00:00:00Z"
    updated_at := "2024-01-01T00:00:00Z"
    pushed_at := none
    topics := none
    is_private := false }

/-- C9: no `CacheService` operation throws to its caller; on a Redis
    failure `get` returns null, `set`/`del`/`exists`/`flushAll` return
    false, `keys` returns `[]`, `increment` returns 0, the state is left
    unchanged, and the failing `get` is indistinguishable from a miss. -/
theorem cacheService_failure_fallbacks (st : List RedisEntry) (k v pat : String)
    (ttl : Nat) (amount : Int) :
    CacheService.get st k true = none ∧
    CacheService.set st k v ttl true = (false, st) ∧
    CacheService.del st k true = (false, st) ∧
    CacheService.existsKey st k true = false ∧
    CacheService.keys st pat true = [] ∧
    CacheService.flushAll st true = (false, st) ∧
    CacheService.increment st k amount true = (0, st) ∧
    CacheService.get st k true = CacheService.get [] k false :=
  ⟨rfl, rfl, rfl, rfl, rfl, rfl, rfl, rfl⟩

/-- C4 counterexample: `CacheService.increment` on a missing key (here the
    very first visitor-count bump) writes an entry with `ttl = none`, i.e.
    a key that persists indefinitely, refuting the claim that every key
    written through the cache service carries a finite TTL. -/
theorem increment_creates_key_without_ttl :
    (CacheService.increment [] "visitor:total" 1 false).2 =
      [{ key := "visitor:total", value := "1", ttl := none }] ∧
    ({ key := "visitor:total", value := "1", ttl := none } : RedisEntry).ttl = none := by
  exact ⟨by decide, rfl⟩

/-- C4 as amended: `CacheService.set` always stores through `setEx` with a
    finite TTL (default 3600 s), but `CacheService.increment` uses
    `incrBy`, which creates a missing key with no TTL, so keys written via
    `increment` can persist indefinitely. -/
theorem cacheSet_finite_ttl_increment_no_ttl (st : List RedisEntry) (k v : String)
    (ttl : Nat) (amount : Int) (fail : Bool) (hmiss : redisLookup st k = none) :
    CacheService.setDefault st k v fail = CacheService.set st k v 3600 fail ∧
    redisLookup (CacheService.set st k v ttl false).2 k = some ⟨k, v, some ttl⟩ ∧
    redisLookup (CacheService.increment st k amount false).2 k =
      some ⟨k, toString amount, none⟩ := by
  refine ⟨rfl, ?_, ?_⟩
  · simp [CacheService.set, redisSetEx, redisLookup]
  · simp only [redisLookup] at hmiss
    simp [CacheService.increment, redisIncrBy, redisLookup, hmiss]

/-- Witness for `cacheSet_finite_ttl_increment_no_ttl` at the empty store
    and the keys the repository actually writes. -/
theorem cacheSet_finite_ttl_increment_no_ttl_witness :
    CacheService.setDefault [] "github:profile" "v" false =
      CacheService.set [] "github:profile" "v" 3600 false ∧
    redisLookup (CacheService.set [] "github:profile" "v" 3600 false).2 "github:profile" =
      some ⟨"github:profile", "v", some 3600⟩ ∧
    redisLookup (CacheService.increment [] "github:profile" 1 false).2 "github:profile" =
      some ⟨"github:profile", toString (1 : Int), none⟩ :=
  cacheSet_finite_ttl_increment_no_ttl [] "github:profile" "v" 3600 1 false rfl

/-- C1 counterexample: on a cache HIT (`cacheService.get` returns a stored
    stats value) `getStats` still performs the GitHub API call
    `fetchRepositories` before sending the cached value, refuting the
    claim that a cached value is served without any GitHub request. -/
theorem getStats_calls_github_on_cache_hit :
    (getStatsHandler (some 7) (Except.ok [3]) (fun l : List Nat => l.length)).githubCalls =
      ["fetchRepositories"] ∧
    (getStatsHandler (some 7) (Except.ok [3]) (fun l : List Nat => l.length)).response =
      some (SentResponse.success 7 true) :=
  ⟨rfl, rfl⟩

/-- C1 as amended: `getProfile` follows the cache-aside pattern exactly
    (hit: send cached value, no GitHub call, no write; miss: fetch, cache
    with TTL 3600, send fresh), while `getStats` deviates by calling
    `fetchRepositories` unconditionally before consulting the cached
    value; it still computes, caches and sends fresh stats only on a miss. -/
theorem cacheAside_getProfile_getStats {α ρ σ : Type} (p fetched : α)
    (fr : Except Unit α) (s : σ) (repos : ρ) (calcStats : ρ → σ) :
    getProfileHandler (some p) fr = ⟨[], [], some (.success p true)⟩ ∧
    getProfileHandler none (Except.ok fetched) =
      ⟨["fetchProfile", "getRateLimit"], [("github:profile", 3600)],
        some (.success fetched false)⟩ ∧
    getStatsHandler (some s) (Except.ok repos) calcStats =
      ⟨["fetchRepositories"], [], some (.success s true)⟩ ∧
    getStatsHandler none (Except.ok repos) calcStats =
      ⟨["fetchRepositories", "getRateLimit"], [("github:stats", 3600)],
        some (.success (calcStats repos) false)⟩ :=
  ⟨rfl, rfl, rfl, rfl⟩

/-- C5 counterexample: when `fetchRepositories` throws inside `getStats`,
    the catch branch only logs — no HTTP response is sent at all, refuting
    the claim that every request receives a response even on failure. -/
theorem getStats_sends_no_response_on_error :
    (getStatsHandler (none : Option Nat) (Except.error ())
      (fun l : List Nat => l.length)).response = none :=
  rfl

/-- C5 as amended: every handler catches and logs a throwing service call,
    and `getProfile` (like most handlers) then sends an error response;
    but `getStats` and `getEvents` (and likewise `getRepositoryCommits`)
    only log, sending no HTTP response on failure. -/
theorem handlers_error_response_pattern {α ρ σ : Type} (cv : Option α) (calcStats : ρ → σ)
    (cs : Option σ) :
    (getProfileHandler cv (Except.error ())).response ≠ none ∧
    (getProfileHandler (none : Option α) (Except.error ())).response =
      some SentResponse.failure ∧
    (getStatsHandler cs (Except.error ()) calcStats).response = none ∧
    (getEventsHandler (none : Option α) (Except.error ())).response = none := by
  refine ⟨?_, rfl, rfl, rfl⟩
  cases cv <;> simp [getProfileHandler]

/-- C8 counterexample: a profile response whose `blog` is the (present,
    non-absent) empty string is mapped to `null` by `fetchProfile`'s
    `|| null`, so that field is not copied unchanged. -/
theorem fetchProfile_blog_empty_string_to_null :
    sampleUserResponse.blog = some "" ∧ (fetchProfile sampleUserResponse).blog = none :=
  ⟨rfl, rfl⟩

/-- C8 as amended: `fetchProfile` copies every field of the GitHub API
    response unchanged, except that the optional fields `location`,
    `email`, `company`, `blog`, `twitter_username` go through JS `|| null`,
    which maps both absent and empty-string values to null; no field is
    otherwise transformed or derived. -/
theorem fetchProfile_field_mapping (resp : GitHubUserResponse) :
    (fetchProfile resp).login = resp.login ∧
    (fetchProfile resp).name = resp.name ∧
    (fetchProfile resp).bio = resp.bio ∧
    (fetchProfile resp).avatar_url = resp.avatar_url ∧
    (fetchProfile resp).location = specOptionalField resp.location ∧
    (fetchProfile resp).email = specOptionalField resp.email ∧
    (fetchProfile resp).company = specOptionalField resp.company ∧
    (fetchProfile resp).blog = specOptionalField resp.blog ∧
    (fetchProfile resp).twitter_username = specOptionalField resp.twitter_username ∧
    (fetchProfile resp).public_gists = resp.public_gists ∧
    (fetchProfile resp).public_repos = resp.public_repos ∧
    (fetchProfile resp).followers = resp.followers ∧
    (fetchProfile resp).following = resp.following ∧
    (fetchProfile resp).created_at = resp.created_at ∧
    (fetchProfile resp).updated_at = resp.updated_at := by
  have h : ∀ o : Option String, jsOrNull o = specOptionalField o := by
    intro o
    rcases o with _ | s
    · rfl
    · by_cases hs : s = "" <;> simp [jsOrNull, specOptionalField, hs]
  exact ⟨rfl, rfl, rfl, rfl, h _, h _, h _, h _, h _, rfl, rfl, rfl, rfl, rfl, rfl⟩

/-- C10: every `Project` built by the project service has a non-empty
    `categories` list, and when none of the topic or language heuristics
    matched, `determineCategories` falls back to `['other']`. -/
theorem project_categories_nonempty (now : Int) (repo : GitHubRepository) :
    (mapRepositoryToProject now repo).categories ≠ [] ∧
    (rawCategories repo = [] → determineCategories repo = ["other"]) := by
  constructor
  · show determineCategories repo ≠ []
    unfold determineCategories
    split_ifs with h
    · exact List.ne_nil_of_length_pos h
    · simp
  · intro h
    unfold determineCategories
    simp [h]

/-- Witness for `project_categories_nonempty` at a repository with no
    topics and no language. -/
theorem project_categories_nonempty_witness :
    (mapRepositoryToProject 0 sampleBareRepo).categories ≠ [] ∧
    determineCategories sampleBareRepo = ["other"] :=
  ⟨(project_categories_nonempty 0 sampleBareRepo).1,
    (project_categories_nonempty 0 sampleBareRepo).2 rfl⟩

/-- C3: `handleGithubWebhook` reaches `processWebhookEvent` only when the
    signature verifies; whenever verification fails no cache key is
    deleted, and if a (nonempty) signature was supplied the response is
    401. A request with an empty/missing signature header is rejected
    earlier with 400, also deleting nothing. -/
theorem handleGithubWebhook_gating (hmacHex : String → List Nat → String)
    (secret : Option String) (signature : String) (payload : List Nat) (eventType : String) :
    ((handleGithubWebhook hmacHex secret signature payload eventType).processedEvent = true →
      verifyWebhookSignature hmacHex secret (some payload) (some signature) = true) ∧
    (verifyWebhookSignature hmacHex secret (some payload) (some signature) = false →
      (handleGithubWebhook hmacHex secret signature payload eventType).deleted = [] ∧
      (handleGithubWebhook hmacHex secret signature payload eventType).processedEvent = false) ∧
    (signature ≠ "" →
      verifyWebhookSignature hmacHex secret (some payload) (some signature) = false →
      (handleGithubWebhook hmacHex secret signature payload eventType).status = 401) := by
  unfold handleGithubWebhook
  split_ifs with h1 h2 <;> simp_all

/-- Witness for `handleGithubWebhook_gating`: a concrete request whose
    signature fails verification gets 401 and deletes nothing. -/
theorem handleGithubWebhook_gating_witness :
    (handleGithubWebhook (fun _ _ => "0") (some "k") "bad" [] "push").deleted = [] ∧
    (handleGithubWebhook (fun _ _ => "0") (some "k") "bad" [] "push").processedEvent = false ∧
    (handleGithubWebhook (fun _ _ => "0") (some "k") "bad" [] "push").status = 401 := by
  have h := handleGithubWebhook_gating (fun _ _ => "0") (some "k") "bad" [] "push"
  have hv : verifyWebhookSignature (fun _ _ => "0") (some "k")
      (some ([] : List Nat)) (some "bad") = false := by decide
  exact ⟨(h.2.1 hv).1, (h.2.1 hv).2, h.2.2 (by decide) hv⟩

/-- C6: `getAllProjects` returns exactly the fetched repositories that are
    not private and whose name does not contain `'fork'`, each mapped to a
    `Project`, in the same relative order (it IS the filter of the input
    followed by the map); membership in the output is characterised
    accordingly, so private or fork-named repositories never contribute. -/
theorem getAllProjects_filter_map (now : Int) (repos : List GitHubRepository) :
    getAllProjects now repos =
      (repos.filter (fun r => !r.is_private && !(strIncludes r.name "fork"))).map
        (mapRepositoryToProject now) ∧
    ∀ proj : Project,
      proj ∈ getAllProjects now repos ↔
        ∃ r : GitHubRepository, r ∈ repos ∧ r.is_private = false ∧
          strIncludes r.name "fork" = false ∧ proj = mapRepositoryToProject now r := by
  constructor
  · rfl
  · intro proj
    simp only [getAllProjects, filterRepositories, List.mem_map, List.mem_filter,
      Bool.and_eq_true, Bool.not_eq_true']
    constructor
    · rintro ⟨r, ⟨hr, hp, hf⟩, rfl⟩
      exact ⟨r, hr, hp, hf, rfl⟩
    · rintro ⟨r, hr, hp, hf, rfl⟩
      exact ⟨r, ⟨hr, hp, hf⟩, rfl⟩

/-- A `sha256=`-prefixed digest string is never empty. -/
theorem sha_prefix_ne_empty (x : String) : "sha256=" ++ x ≠ "" := by
  intro h
  have h2 := congrArg String.length h
  rw [String.length_append] at h2
  have h7 : ("sha256=" : String).length = 7 := rfl
  have h0 : ("" : String).length = 0 := rfl
  rw [h7, h0] at h2
  omega

/-- C2: `verifyWebhookSignature` returns true exactly when the webhook
    secret is set (to a nonempty string — JS truthiness treats `''` like
    unset) and the received signature is literally `sha256=` followed by
    the hex HMAC-SHA256 digest of the payload bytes under that secret; in
    particular it returns false when the secret, signature or payload is
    missing. -/
theorem verifyWebhookSignature_iff (hmacHex : String → List Nat → String)
    (secret : Option String) (payload : Option (List Nat)) (signature : Option String) :
    verifyWebhookSignature hmacHex secret payload signature = true ↔
      ∃ s p, secret = some s ∧ s ≠ "" ∧ payload = some p ∧
        signature = some ("sha256=" ++ hmacHex s p) := by
  rcases secret with _ | s <;> rcases payload with _ | p <;> rcases signature with _ | g <;>
    simp [verifyWebhookSignature]
  constructor
  · rintro ⟨⟨hs, _⟩, _, hg⟩
    exact ⟨hs, hg⟩
  · rintro ⟨hs, hg⟩
    subst hg
    exact ⟨⟨hs, sha_prefix_ne_empty _⟩, String.length_append _ _, rfl⟩

/-- The streaks emitted by `findConsecutiveGo` are, by their day counts,
    exactly the maximal-run lengths that exceed 1. -/
theorem findConsecutiveGo_days (rest : List Int) : ∀ (prev first : Int) (len : Nat),
    (findConsecutiveGo prev first len rest).map Streak.days =
      (runLengthsGo prev len rest).filter (fun n => 1 < n) := by
  induction rest with
  | nil =>
    intro prev first len
    by_cases h : 1 < len <;> simp [findConsecutiveGo, runLengthsGo, h]
  | cons d rest ih =>
    intro prev first len
    by_cases hd : d - prev = 1
    · simp [findConsecutiveGo, runLengthsGo, hd, ih]
    · by_cases h : 1 < len <;> simp [findConsecutiveGo, runLengthsGo, hd, h, ih]

/-- Every run length collected by `runLengthsGo` is at least the (positive)
    running count, hence at least 1. -/
theorem runLengthsGo_pos (rest : List Int) : ∀ (prev : Int) (len : Nat), 1 ≤ len →
    ∀ x ∈ runLengthsGo prev len rest, 1 ≤ x := by
  induction rest with
  | nil =>
    intro prev len hlen x hx
    simp [runLengthsGo] at hx
    omega
  | cons d rest ih =>
    intro prev len hlen x hx
    by_cases hd : d - prev = 1
    · simp only [runLengthsGo, if_pos hd] at hx
      exact ih d (len + 1) (by omega) x hx
    · simp only [runLengthsGo, if_neg hd, List.mem_cons] at hx
      rcases hx with rfl | hx
      · exact hlen
      · exact ih d 1 (le_refl 1) x hx

/-- The seed is a lower bound of a left fold by `max`. -/
theorem le_foldl_max_init (l : List Nat) : ∀ a, a ≤ l.foldl max a := by
  induction l with
  | nil => intro a; exact le_refl a
  | cons x xs ih => intro a; exact le_trans (le_max_left a x) (ih (max a x))

/-- Every member is a lower bound of a left fold by `max`. -/
theorem le_foldl_max_mem (l : List Nat) : ∀ a x, x ∈ l → x ≤ l.foldl max a := by
  induction l with
  | nil => intro a x hx; simp at hx
  | cons y ys ih =>
    intro a x hx
    rcases List.mem_cons.mp hx with rfl | hx
    · exact le_trans (le_max_right a x) (le_foldl_max_init ys (max a x))
    · exact ih (max a y) x hx

/-- A left fold by `max` is attained: it is the seed or a member. -/
theorem foldl_max_cases (l : List Nat) : ∀ a, l.foldl max a = a ∨ l.foldl max a ∈ l := by
  induction l with
  | nil => intro a; left; rfl
  | cons y ys ih =>
    intro a
    rcases ih (max a y) with h | h
    · rw [List.foldl_cons, h]
      rcases max_choice a y with h2 | h2
      · left; exact h2
      · right; rw [h2]; exact List.mem_cons_self y ys
    · right; exact List.mem_cons_of_mem y h

/-- A left fold by `max` is bounded by any common upper bound. -/
theorem foldl_max_le (l : List Nat) : ∀ a b, a ≤ b → (∀ x ∈ l, x ≤ b) → l.foldl max a ≤ b := by
  induction l with
  | nil => intro a b hab _; exact hab
  | cons y ys ih =>
    intro a b hab hall
    exact ih (max a y) b (max_le hab (hall y (List.mem_cons_self y ys)))
      (fun x hx => hall x (List.mem_cons_of_mem y hx))

/-- The JS `reduce` that keeps the streak with strictly more days computes,
    on the `days` field, a left fold by `max`. -/
theorem foldl_pickLongest_days (rest : List Streak) : ∀ s : Streak,
    (rest.foldl (fun longest streak =>
        if streak.days > longest.days then streak else longest) s).days =
      (rest.map Streak.days).foldl max s.days := by
  induction rest with
  | nil => intro s; rfl
  | cons t ts ih =>
    intro s
    rw [List.foldl_cons, List.map_cons, List.foldl_cons, ih]
    congr 1
    by_cases h : t.days > s.days
    · simp [h, Nat.max_eq_right (Nat.le_of_lt h)]
    · simp [h, Nat.max_eq_left (Nat.not_lt.mp h)]

/-- With at least two commit days, the longest-streak day count produced by
    `calculateStreaks` is the fold of the emitted streaks' day counts. -/
theorem calculateStreaks_snd_days (today x y : Int) (rest : List Int) :
    (calculateStreaks today (x :: y :: rest)).2.days =
      (match findConsecutiveDays (x :: y :: rest) with
      | [] => 0
      | s :: r => (r.map Streak.days).foldl max s.days) := by
  cases h : findConsecutiveDays (x :: y :: rest) with
  | nil => simp [calculateStreaks, h]
  | cons s r => simp [calculateStreaks, h, foldl_pickLongest_days]

/-- C7 counterexample: for the non-empty commit-day set frozen as day
    numbers 0 and 2 (two distinct days, not consecutive), the longest run
    of consecutive calendar days has length 1, yet `calculateStreaks`
    reports a longest streak of 0 days — refuting the claim that the value
    always equals the longest run length and is at least 1. -/
theorem longestStreak_counterexample :
    (calculateStreaks 0 [0, 2]).2.days = 0 ∧ maxRunLen [0, 2] = 1 := by
  constructor <;> decide

/-- C7 as amended: on the sorted list of distinct commit days, the longest
    streak reported by `calculateStreaks` has `days` equal to the length
    of the longest run of consecutive calendar days whenever that length
    is at least 2, and equal to 1 for a single commit day; but with at
    least two commit days and no two of them consecutive it is 0 (not 1),
    because `findConsecutiveDays` drops runs of length 1. -/
theorem longestStreak_vs_maxRun (today : Int) (ds : List Int) (d : Int) :
    (calculateStreaks today [d]).2.days = 1 ∧
    (2 ≤ maxRunLen ds → (calculateStreaks today ds).2.days = maxRunLen ds) ∧
    (2 ≤ ds.length → maxRunLen ds ≤ 1 → (calculateStreaks today ds).2.days = 0) := by
  refine ⟨rfl, ?_, ?_⟩
  · intro hM
    obtain ⟨x, y, rest, rfl⟩ : ∃ x y rest, ds = x :: y :: rest := by
      match ds with
      | [] => simp [maxRunLen, runLengths] at hM
      | [x] => simp [maxRunLen, runLengths, runLengthsGo] at hM
      | x :: y :: rest => exact ⟨x, y, rest, rfl⟩
    have hL : maxRunLen (x :: y :: rest) = (runLengthsGo x 1 (y :: rest)).foldl max 0 := rfl
    have hF : (findConsecutiveDays (x :: y :: rest)).map Streak.days =
        (runLengthsGo x 1 (y :: rest)).filter (fun n => 1 < n) :=
      findConsecutiveGo_days (y :: rest) x x 1
    rw [hL] at hM ⊢
    rw [calculateStreaks_snd_days]
    have hMmem : (runLengthsGo x 1 (y :: rest)).foldl max 0 ∈ runLengthsGo x 1 (y :: rest) := by
      rcases foldl_max_cases (runLengthsGo x 1 (y :: rest)) 0 with h | h
      · omega
      · exact h
    have hMF : (runLengthsGo x 1 (y :: rest)).foldl max 0 ∈
        (runLengthsGo x 1 (y :: rest)).filter (fun n => 1 < n) :=
      List.mem_filter.mpr ⟨hMmem, by simp only [decide_eq_true_eq]; omega⟩
    cases hfc : findConsecutiveDays (x :: y :: rest) with
    | nil =>
      rw [hfc] at hF
      simp only [List.map_nil] at hF
      rw [← hF] at hMF
      simp at hMF
    | cons s r =>
      rw [hfc] at hF
      simp only [List.map_cons] at hF
      show (r.map Streak.days).foldl max s.days = _
      apply Nat.le_antisymm
      · apply foldl_max_le
        · exact le_foldl_max_mem _ 0 s.days
            (List.mem_of_mem_filter (hF ▸ List.mem_cons_self _ _))
        · intro z hz
          exact le_foldl_max_mem _ 0 z
            (List.mem_of_mem_filter (hF ▸ List.mem_cons_of_mem _ hz))
      · rw [← hF] at hMF
        rcases List.mem_cons.mp hMF with h | h
        · exact h ▸ le_foldl_max_init (r.map Streak.days) s.days
        · exact le_foldl_max_mem _ s.days _ h
  · intro hlen hM
    obtain ⟨x, y, rest, rfl⟩ : ∃ x y rest, ds = x :: y :: rest := by
      match ds with
      | [] => simp at hlen
      | [x] => simp at hlen
      | x :: y :: rest => exact ⟨x, y, rest, rfl⟩
    have hL : maxRunLen (x :: y :: rest) = (runLengthsGo x 1 (y :: rest)).foldl max 0 := rfl
    have hF : (findConsecutiveDays (x :: y :: rest)).map Streak.days =
        (runLengthsGo x 1 (y :: rest)).filter (fun n => 1 < n) :=
      findConsecutiveGo_days (y :: rest) x x 1
    rw [hL] at hM
    rw [calculateStreaks_snd_days]
    have hFnil : (runLengthsGo x 1 (y :: rest)).filter (fun n => 1 < n) = [] := by
      rw [List.filter_eq_nil_iff]
      intro z hz
      have h2 := le_foldl_max_mem (runLengthsGo x 1 (y :: rest)) 0 z hz
      simp only [decide_eq_true_eq]
      omega
    cases hfc : findConsecutiveDays (x :: y :: rest) with
    | nil => rfl
    | cons s r =>
      rw [hfc] at hF
      rw [hFnil] at hF
      simp at hF

/-- Witness for `longestStreak_vs_maxRun`: a single commit day gives 1; the
    days 0,1,3 (longest run 2) give 2; the non-consecutive days 4,6 give 0. -/
theorem longestStreak_vs_maxRun_witness :
    (calculateStreaks 0 [(5 : Int)]).2.days = 1 ∧
    (calculateStreaks 0 [0, 1, 3]).2.days = maxRunLen [0, 1, 3] ∧
    (calculateStreaks 0 [4, 6]).2.days = 0 := by
  refine ⟨(longestStreak_vs_maxRun 0 [0] 5).1, ?_, ?_⟩
  · exact (longestStreak_vs_maxRun 0 [0, 1, 3] 5).2.1 (by decide)
  · exact (longestStreak_vs_maxRun 0 [4, 6] 5).2.2 (by decide) (by decide)
